import Mathlib

/-!
Verification of the Zod-template generator of postgres-meta.

The development shallowly embeds the two generator variants found in the
repository:

* `src/server/templates/zod.ts` — the full template (`apply`, `toPascalCase`,
  `pgTypeToZodType`); its definitions are prefixed with nothing or named after
  the source symbols.
* the second variant (an unnamed source file) — `pgTypeToZodSchema` with a
  generation mode and the `makeListShapeLine` / `makeInsertShapeLine` /
  `makeUpdateShapeLine` helpers.

Type names are processed character-by-character (a `String` is its list of
characters); `pgType.substring(1)` corresponds to dropping the head of the
character list, and `pgType.startsWith('_')` to the head being `'_'`.

Parts of the specified system that have no code in the repository (the
relationship analyzer and the lenient coercion library) are modelled from the
specification; each such definition carries a doc comment starting with
`Modelled from the spec:`.
-/

/- ===================== Data model ===================== -/

/-- A schema record: the template only reads its `name`. -/
structure PostgresSchema where
  name : String
deriving DecidableEq

/-- An attribute of a composite type: `{ name, type_id }`. -/
structure PostgresTypeAttribute where
  name : String
  type_id : Nat
deriving DecidableEq

/-- A user-defined type record. `enums` is nonempty exactly for enum types and
`attributes` is nonempty exactly for composite types. -/
structure PostgresType where
  id : Nat
  name : String
  schema : String
  enums : List String
  attributes : List PostgresTypeAttribute
deriving DecidableEq

/-- A table (or foreign table) record: the template reads `id`, `name`, `schema`. -/
structure PostgresTable where
  id : Nat
  name : String
  schema : String
deriving DecidableEq

/-- A view record (also used for materialized views): the template reads `id`,
`name`, `schema` and, for plain views, `is_updatable`. -/
structure PostgresView where
  id : Nat
  name : String
  schema : String
  is_updatable : Bool
deriving DecidableEq

/-- A column record with exactly the fields the template reads.
`identity_generation` is `some "ALWAYS"`, `some "BY DEFAULT"`, or `none`
(the TypeScript value `null`); `default_value` is `none` for SQL `null`. -/
structure PostgresColumn where
  table_id : Nat
  name : String
  format : String
  is_nullable : Bool
  is_identity : Bool
  identity_generation : Option String
  default_value : Option String
  is_updatable : Bool
deriving DecidableEq

/-- One function argument: `{ mode, name, type_id, has_default }`, where
`mode` ranges over "in", "inout", "out", "variadic", "table". -/
structure PostgresFunctionArg where
  mode : String
  name : String
  type_id : Nat
  has_default : Bool
deriving DecidableEq

/-- A function record with the fields the function-section filter reads. -/
structure PostgresFunction where
  name : String
  schema : String
  args : List PostgresFunctionArg
deriving DecidableEq

/-- The context object `{ types, schemas, tables, views }` threaded through the
type resolvers. -/
structure PgCtx where
  types : List PostgresType
  schemas : List PostgresSchema
  tables : List PostgresTable
  views : List PostgresView
deriving DecidableEq

/-- The slice of the generator-metadata bundle read by the column-indexing
pass (zod.ts lines 23-29 and the same pass in the second variant). -/
structure GeneratorMetadata where
  tables : List PostgresTable
  foreignTables : List PostgresTable
  views : List PostgresView
  materializedViews : List PostgresView
  columns : List PostgresColumn
deriving DecidableEq

/- ===================== Shared helpers ===================== -/

/-- `JSON.stringify` on a string value: wrap in double quotes, escaping `"`
and `\`. (JSON.stringify additionally escapes control characters; no name in
this development contains any, so that case is omitted.) -/
def jsonStringify (s : String) : String :=
  "\"" ++ String.join (s.data.map (fun c =>
    if c = '"' then "\\\"" else if c = '\\' then "\\\\" else String.mk [c])) ++ "\""

/-- One word of `toPascalCase`:
`word.charAt(0).toUpperCase() + word.slice(1).toLowerCase()`. -/
def pascalWord (w : String) : String :=
  match w.data with
  | [] => ""
  | c :: cs => String.mk (c.toUpper :: cs.map Char.toLower)

/-- JavaScript `str.split('_')` on the character list: splitting on every
underscore, keeping empty pieces (`''.split('_')` is `['']`). -/
def splitUnderscore : List Char → List (List Char)
  | [] => [[]]
  | '_' :: rest => [] :: splitUnderscore rest
  | c :: rest =>
    match splitUnderscore rest with
    | w :: ws => (c :: w) :: ws
    | [] => [[c]]

/-- zod.ts lines 378-383: snake_case to PascalCase
(`str.split('_').map(word => ...).join('')`). -/
def toPascalCase (s : String) : String :=
  String.join ((splitUnderscore s.data).map (fun w => pascalWord (String.mk w)))

/- ===================== zod.ts type resolver ===================== -/

/-- The integer/float/decimal names of zod.ts line 403. -/
def zodNumberNames : List String :=
  ["int2", "int4", "int8", "float4", "float8", "numeric"]

/-- The string-producing names of zod.ts lines 406-419. -/
def zodStringNames : List String :=
  ["bytea", "bpchar", "varchar", "date", "text", "citext", "time", "timetz",
   "timestamp", "timestamptz", "uuid", "vector"]

/-- The scalar branches of `pgTypeToZodType` (zod.ts lines 401-427), checked
before the array branch; `none` means none of them matched. -/
def zodScalarCase (s : String) : Option String :=
  if s = "bool" then some "z.boolean()"
  else if s ∈ zodNumberNames then some "z.number()"
  else if s ∈ zodStringNames then some "z.string()"
  else if s ∈ ["json", "jsonb"] then some "JsonSchema"
  else if s = "void" then some "z.undefined()"
  else if s = "record" then some "z.record(z.unknown())"
  else none

/-- The trailing else branch of `pgTypeToZodType` (zod.ts lines 435-478):
enum, then composite, then table row type, then view row type, each preferring
the match owned by the home schema (`find(...) || matches[0]`), else the
permissive fallback. -/
def pgTypeToZodTypeElse (schema : PostgresSchema) (ctx : PgCtx) (pgType : String) : String :=
  match ctx.types.filter (fun ty => ty.name == pgType && decide (0 < ty.enums.length)) with
  | e0 :: erest =>
    match ((e0 :: erest).find? (fun ty => ty.schema == schema.name)).getD e0 with
    | enumType =>
      if ctx.schemas.any (fun sc => sc.name == enumType.schema) then
        toPascalCase enumType.schema ++ toPascalCase enumType.name ++ "Schema"
      else
        "z.enum([" ++ String.intercalate ", " (enumType.enums.map jsonStringify) ++ "])"
  | [] =>
    match ctx.types.filter (fun ty => ty.name == pgType && decide (0 < ty.attributes.length)) with
    | c0 :: crest =>
      match ((c0 :: crest).find? (fun ty => ty.schema == schema.name)).getD c0 with
      | compositeType =>
        if ctx.schemas.any (fun sc => sc.name == compositeType.schema) then
          toPascalCase compositeType.schema ++ toPascalCase compositeType.name ++ "Schema"
        else
          "z.unknown()"
    | [] =>
      match ctx.tables.filter (fun t => t.name == pgType) with
      | t0 :: trest =>
        match ((t0 :: trest).find? (fun t => t.schema == schema.name)).getD t0 with
        | tableRowType =>
          if ctx.schemas.any (fun sc => sc.name == tableRowType.schema) then
            toPascalCase tableRowType.schema ++ toPascalCase tableRowType.name ++ "RowSchema"
          else
            "z.unknown()"
      | [] =>
        match ctx.views.filter (fun v => v.name == pgType) with
        | v0 :: vrest =>
          match ((v0 :: vrest).find? (fun v => v.schema == schema.name)).getD v0 with
          | viewRowType =>
            if ctx.schemas.any (fun sc => sc.name == viewRowType.schema) then
              toPascalCase viewRowType.schema ++ toPascalCase viewRowType.name ++ "RowSchema"
            else
              "z.unknown()"
        | [] => "z.unknown()"

/-- `pgTypeToZodType` (zod.ts lines 386-479) on the character list of the type
name. The source checks the scalar branches, then `startsWith('_')` (recursing
on `substring(1)`), then the enum/composite/table/view chain; here the scalar
check is shared between the two list shapes via `zodScalarCase`. -/
def pgTypeToZodTypeGo (schema : PostgresSchema) (ctx : PgCtx) : List Char → String
  | '_' :: rest =>
    (zodScalarCase (String.mk ('_' :: rest))).getD
      ("z.array(" ++ pgTypeToZodTypeGo schema ctx rest ++ ")")
  | pgType =>
    (zodScalarCase (String.mk pgType)).getD
      (pgTypeToZodTypeElse schema ctx (String.mk pgType))

/-- `pgTypeToZodType` (zod.ts lines 386-479). -/
def pgTypeToZodType (schema : PostgresSchema) (pgType : String) (ctx : PgCtx) : String :=
  pgTypeToZodTypeGo schema ctx pgType.data

/- ===================== zod.ts shape lines ===================== -/

/-- zod.ts lines 113-117: one field line of a table row schema (the view row
lines 176-180 are textually identical). -/
def rowSchemaLine (schema : PostgresSchema) (ctx : PgCtx) (column : PostgresColumn) : String :=
  let zodType := pgTypeToZodType schema column.format ctx
  let nullable := if column.is_nullable then ".nullable()" else ""
  jsonStringify column.name ++ ": " ++ zodType ++ nullable

/-- zod.ts lines 122-132: one field line of a table insert schema. -/
def insertSchemaLine (schema : PostgresSchema) (ctx : PgCtx) (column : PostgresColumn) : String :=
  if column.identity_generation = some "ALWAYS" then
    jsonStringify column.name ++ ": z.never().optional()"
  else
    let zodType := pgTypeToZodType schema column.format ctx
    let nullable := if column.is_nullable then ".nullable()" else ""
    let optional :=
      if column.is_nullable || column.is_identity || column.default_value.isSome
      then ".optional()" else ""
    jsonStringify column.name ++ ": " ++ zodType ++ nullable ++ optional

/-- zod.ts lines 137-146: one field line of a table update schema. -/
def updateSchemaLine (schema : PostgresSchema) (ctx : PgCtx) (column : PostgresColumn) : String :=
  if column.identity_generation = some "ALWAYS" then
    jsonStringify column.name ++ ": z.never().optional()"
  else
    let zodType := pgTypeToZodType schema column.format ctx
    let nullable := if column.is_nullable then ".nullable()" else ""
    jsonStringify column.name ++ ": " ++ zodType ++ nullable ++ ".optional()"

/-- zod.ts lines 187-195: one field line of an updatable-view insert schema.
Note that the updatable branch interpolates `column.name` raw (line 194:
`${column.name}: ...`), without `JSON.stringify`, unlike every other field
line in the file. -/
def viewInsertSchemaLine (schema : PostgresSchema) (ctx : PgCtx) (column : PostgresColumn) : String :=
  if !column.is_updatable then
    jsonStringify column.name ++ ": z.never().optional()"
  else
    let zodType := pgTypeToZodType schema column.format ctx
    column.name ++ ": " ++ zodType ++ ".nullable().optional()"

/-- zod.ts lines 199-207: one field line of an updatable-view update schema
(same text as the insert line, including the raw `${column.name}` on line 206). -/
def viewUpdateSchemaLine (schema : PostgresSchema) (ctx : PgCtx) (column : PostgresColumn) : String :=
  if !column.is_updatable then
    jsonStringify column.name ++ ": z.never().optional()"
  else
    let zodType := pgTypeToZodType schema column.format ctx
    column.name ++ ": " ++ zodType ++ ".nullable().optional()"

/- ===================== zod.ts function filter ===================== -/

/-- zod.ts line 239: the argument modes counted as input arguments. -/
def inputArgModes : List String := ["in", "inout", "variadic"]

/-- zod.ts lines 231-250: the per-schema function filter. A function passes
when it belongs to the schema and either all input arguments are named or
there is exactly one input argument. -/
def functionFilter (schema : PostgresSchema) (func : PostgresFunction) : Bool :=
  if func.schema != schema.name then false
  else
    let inArgs := func.args.filter (fun a => inputArgModes.contains a.mode)
    if !(inArgs.any (fun a => a.name == "")) then true
    else if inArgs.length == 1 then true
    else false

/-- `.sort((a, b) => a.name.localeCompare(b.name))`, with `localeCompare`
modelled as code-point order. -/
def sortFunctionsByName (fns : List PostgresFunction) : List PostgresFunction :=
  fns.mergeSort (fun a b => a.name ≤ b.name)

/-- zod.ts line 48 (etc.): the schema list sorted by name. -/
def sortSchemasByName (schemas : List PostgresSchema) : List PostgresSchema :=
  schemas.mergeSort (fun a b => a.name ≤ b.name)

/-- zod.ts lines 230-251 composed over the sorted schema list (lines 227-229):
the functions that receive validator bundles. Grouping by name (lines 255-262)
partitions this list; every member of a group contributes an args validator
(lines 267-287) and the group emits one returns validator (lines 293-327), so
a function absent from this list is emitted nowhere. -/
def emittedFunctions (schemas : List PostgresSchema) (functions : List PostgresFunction) :
    List PostgresFunction :=
  (sortSchemasByName schemas).flatMap
    (fun s => sortFunctionsByName (functions.filter (functionFilter s)))

/- ===================== zod.ts column indexing ===================== -/

/-- zod.ts lines 23-25: the ids of all relations
(`[...tables, ...foreignTables, ...views, ...materializedViews]`). -/
def relationIds (m : GeneratorMetadata) : List Nat :=
  (m.tables ++ m.foreignTables).map PostgresTable.id
    ++ (m.views ++ m.materializedViews).map PostgresView.id

/-- zod.ts lines 26-28: columns whose `table_id` is a key of the index, sorted
by name (`localeCompare` modelled as code-point order). -/
def keptSortedColumns (m : GeneratorMetadata) : List PostgresColumn :=
  (m.columns.filter (fun c => (relationIds m).contains c.table_id)).mergeSort
    (fun a b => a.name ≤ b.name)

/-- zod.ts line 29: the per-relation bucket. The `forEach` push distributes the
sorted kept columns into the buckets in order, so the bucket of `tid` is the
sorted kept list restricted to `table_id = tid`. -/
def columnsForRelation (m : GeneratorMetadata) (tid : Nat) : List PostgresColumn :=
  (keptSortedColumns m).filter (fun c => c.table_id == tid)

/- ===================== Second variant: pgTypeToZodSchema ===================== -/

/-- The generation mode of the second variant (`type ZodGenMode`). -/
inductive ZodGenMode
  | list
  | insert
  | update
deriving DecidableEq

/-- The `numberTypes` set of the second variant. -/
def part000NumberNames : List String :=
  ["int2", "int4", "int8", "float4", "float8", "numeric"]

/-- The `stringTypes` set of the second variant (time-only names are strings;
date/timestamp are handled separately). -/
def part000StringNames : List String :=
  ["bytea", "bpchar", "varchar", "text", "citext", "time", "timetz", "vector"]

/-- The `dateLikeTypes` set of the second variant. -/
def part000DateLikeNames : List String := ["date", "timestamp", "timestamptz"]

/-- `getEnumVariants` of the second variant: the enum matches for a name, with
home-schema preference, inlined as JSON string literals; `null` when the name
matches no enum type. -/
def getEnumVariants (types : List PostgresType) (schema : PostgresSchema) (t : String) :
    Option (List String) :=
  match types.filter (fun ty => ty.name == t && decide (0 < ty.enums.length)) with
  | [] => none
  | e0 :: erest =>
    some ((((e0 :: erest).find? (fun ty => ty.schema == schema.name)).getD e0).enums.map
      jsonStringify)

/-- The scalar branches of `pgTypeToZodSchema` (checked after the enum branch);
`none` means none matched and the resolver falls through to `z.unknown()`. -/
def part000ScalarCase (mode : ZodGenMode) (s : String) : Option String :=
  if s = "bool" then some "z.boolean()"
  else if s ∈ part000NumberNames then some "z.number()"
  else if s ∈ part000DateLikeNames then
    match mode with
    | ZodGenMode.list => some "z.coerce.date()"
    | _ => some "z.instanceof(Date).transform(d => d.toISOString())"
  else if s = "uuid" then some "z.string().uuid()"
  else if s ∈ part000StringNames then some "z.string()"
  else if s = "json" ∨ s = "jsonb" then some "z.any()"
  else if s = "void" then some "z.undefined()"
  else if s = "record" then some "z.record(z.unknown())"
  else none

/-- `pgTypeToZodSchema` of the second variant on the character list of the
type name: a leading `'_'` (array marker) recurses on the rest under the same
mode; otherwise enums are inlined, then the scalar cases apply, and everything
else is `z.unknown()`. -/
def pgTypeToZodSchemaGo (schema : PostgresSchema) (ctx : PgCtx) (mode : ZodGenMode) :
    List Char → String
  | '_' :: rest => "z.array(" ++ pgTypeToZodSchemaGo schema ctx mode rest ++ ")"
  | pgType =>
    match getEnumVariants ctx.types schema (String.mk pgType) with
    | some variants => "z.enum([" ++ String.intercalate ", " variants ++ "])"
    | none => (part000ScalarCase mode (String.mk pgType)).getD "z.unknown()"

/-- `pgTypeToZodSchema` of the second variant. -/
def pgTypeToZodSchema (schema : PostgresSchema) (pgType : String) (ctx : PgCtx)
    (mode : ZodGenMode) : String :=
  pgTypeToZodSchemaGo schema ctx mode pgType.data

/-- `withNullable` of the second variant. -/
def withNullable (inner : String) (isNullable : Bool) : String :=
  if isNullable then inner ++ ".nullable()" else inner

/-- `makeListShapeLine` of the second variant. -/
def makeListShapeLine (defaultSchema : PostgresSchema) (ctx : PgCtx)
    (col : PostgresColumn) : String :=
  let base := pgTypeToZodSchema defaultSchema col.format ctx ZodGenMode.list
  jsonStringify col.name ++ ": " ++ withNullable base col.is_nullable

/-- `makeInsertShapeLine` of the second variant: identity `ALWAYS` yields the
forbidden-value field; otherwise nullable iff the column is nullable and
optional iff nullable, identity, or defaulted. -/
def makeInsertShapeLine (defaultSchema : PostgresSchema) (ctx : PgCtx)
    (col : PostgresColumn) : String :=
  let isOptional := col.is_nullable || col.is_identity || col.default_value.isSome
  if col.identity_generation = some "ALWAYS" then
    jsonStringify col.name ++ "?: z.never()"
  else
    let z := withNullable (pgTypeToZodSchema defaultSchema col.format ctx ZodGenMode.insert)
      col.is_nullable
    let z := if isOptional then z ++ ".optional()" else z
    jsonStringify col.name ++ ": " ++ z

/-- `makeUpdateShapeLine` of the second variant: identity `ALWAYS` yields the
forbidden-value field; otherwise everything is optional. -/
def makeUpdateShapeLine (defaultSchema : PostgresSchema) (ctx : PgCtx)
    (col : PostgresColumn) : String :=
  if col.identity_generation = some "ALWAYS" then
    jsonStringify col.name ++ "?: z.never()"
  else
    let z := withNullable (pgTypeToZodSchema defaultSchema col.format ctx ZodGenMode.update)
      col.is_nullable
    jsonStringify col.name ++ ": " ++ (z ++ ".optional()")

/- ===================== Step-counting resolver variants ===================== -/

/-- `pgTypeToZodTypeGo` instrumented with fuel: each recursive array step
consumes one unit; `none` means the computation needs more than `fuel`
recursive steps. Used to witness that resolution of a name with `k` leading
array markers terminates within `k` recursive steps. -/
def pgTypeToZodTypeSteps (schema : PostgresSchema) (ctx : PgCtx) :
    Nat → List Char → Option String
  | fuel, '_' :: rest =>
    match zodScalarCase (String.mk ('_' :: rest)) with
    | some r => some r
    | none =>
      match fuel with
      | 0 => none
      | f + 1 => (pgTypeToZodTypeSteps schema ctx f rest).map (fun r => "z.array(" ++ r ++ ")")
  | _, pgType =>
    some ((zodScalarCase (String.mk pgType)).getD (pgTypeToZodTypeElse schema ctx (String.mk pgType)))

/-- `pgTypeToZodSchemaGo` instrumented with fuel, as `pgTypeToZodTypeSteps`. -/
def pgTypeToZodSchemaSteps (schema : PostgresSchema) (ctx : PgCtx) (mode : ZodGenMode) :
    Nat → List Char → Option String
  | 0, '_' :: _ => none
  | f + 1, '_' :: rest =>
    (pgTypeToZodSchemaSteps schema ctx mode f rest).map (fun r => "z.array(" ++ r ++ ")")
  | _, pgType =>
    some (match getEnumVariants ctx.types schema (String.mk pgType) with
      | some variants => "z.enum([" ++ String.intercalate ", " variants ++ "])"
      | none => (part000ScalarCase mode (String.mk pgType)).getD "z.unknown()")

/-- `k` nested array-of wrappers around a validator expression. -/
def nestArray : Nat → String → String
  | 0, s => s
  | k + 1, s => "z.array(" ++ nestArray k s ++ ")"

/- ===================== Relationship analyzer (spec-modelled) ===================== -/

/-- Modelled from the spec: a foreign-key `Relationship` record (spec section 3).
The repository's sources receive `relationships` in the metadata bundle but the
analyzer that consumes them is not among the files under `src/`. -/
structure PostgresRelationship where
  schema : String
  relation : String
  columns : List String
  referenced_schema : String
  referenced_relation : String
  referenced_columns : List String
deriving DecidableEq

/-- Modelled from the spec: a derived many-to-many record
`(joinTable, leftTable, rightTable, leftKey, rightKey)` (spec section 3); the
accessor lives on `leftTable` and targets `rightTable` through `joinTable`. -/
structure ManyToMany where
  joinTable : String
  leftTable : String
  rightTable : String
  leftKey : List String
  rightKey : List String
deriving DecidableEq

/-- Modelled from the spec: the Relationships pointing away from a relation
(those whose source relation is the given one). -/
def outgoingRelationships (relationships : List PostgresRelationship) (relName : String) :
    List PostgresRelationship :=
  relationships.filter (fun r => r.relation == relName)

/-- Modelled from the spec: a relation qualifies as a junction when it has
exactly two outgoing Relationships; each qualifying junction yields two
directional records, left-to-right and its mirror with the keys swapped
(spec sections 3 and 4.2). -/
def junctionRecords (relationships : List PostgresRelationship) (relName : String) :
    List ManyToMany :=
  match outgoingRelationships relationships relName with
  | [r1, r2] =>
    [ { joinTable := relName, leftTable := r1.referenced_relation,
        rightTable := r2.referenced_relation, leftKey := r1.columns, rightKey := r2.columns },
      { joinTable := relName, leftTable := r2.referenced_relation,
        rightTable := r1.referenced_relation, leftKey := r2.columns, rightKey := r1.columns } ]
  | _ => []

/-- Modelled from the spec: merging the synthesized records, deduplicating by
target so a relation never exposes two many-to-many accessors to the same
target (first record wins; spec section 4.2). -/
def dedupStep (acc : List ManyToMany) (m : ManyToMany) : List ManyToMany :=
  if acc.any (fun m2 => m2.leftTable == m.leftTable && m2.rightTable == m.rightTable)
  then acc else acc ++ [m]

/-- Modelled from the spec: keep-first deduplication by (host, target) pair. -/
def dedupByTarget (ms : List ManyToMany) : List ManyToMany :=
  ms.foldl dedupStep []

/-- Modelled from the spec: the analyzer's many-to-many output, computed once
over all relations (spec section 4.2). -/
def analyzeManyToMany (relationNames : List String)
    (relationships : List PostgresRelationship) : List ManyToMany :=
  dedupByTarget ((relationNames.map (junctionRecords relationships)).flatten)

/- ===================== Lenient coercion (spec-modelled) ===================== -/

/-- Modelled from the spec: a runtime value reaching a lenient coercion rule.
Numbers are rationals (a float that is "exactly integral" has denominator 1). -/
inductive JsValue
  | num (q : ℚ)
  | str (s : String)
  | boolean (b : Bool)
  | null
deriving DecidableEq

/-- Digits-only parse of a nonempty digit list. -/
def parseDigits : List Char → Option Nat
  | [] => none
  | ds => ds.foldl (fun acc c =>
      match acc with
      | none => none
      | some n => if c.isDigit then some (n * 10 + (c.toNat - '0'.toNat)) else none)
      (some 0)

/-- Modelled from the spec: base-10 integer parse of a string (an optional
leading minus sign followed by decimal digits). The lenient integer rule of
the spec accepts a string only when this parse, rendered back to text,
reproduces the string, so looser parses (whitespace, partial parses) are
extensionally irrelevant. -/
def parseBase10 (s : String) : Option Int :=
  match s.data with
  | '-' :: ds => (parseDigits ds).map (fun n => -(n : Int))
  | ds => (parseDigits ds).map (fun n => (n : Int))

/-- Modelled from the spec: the lenient integer coercion rule (spec section
4.4) — the repository's sources contain no lenient-insert code. A native
number passes only if exactly integral; a string passes only if its base-10
parse converts back to the original text exactly; everything else fails. -/
def lenientIntCoerce : JsValue → Option Int
  | JsValue.num q => if q.den = 1 then some q.num else none
  | JsValue.str s =>
    match parseBase10 s with
    | some n => if toString n = s then some n else none
    | none => none
  | _ => none

/-- The rational 85/2, i.e. the JavaScript number 42.5. -/
def fortyTwoPointFive : ℚ :=
  { num := 85, den := 2, den_nz := by decide, reduced := by decide }

/- ===================== Helper lemmas ===================== -/

lemma zodScalarCase_underscore (l : List Char) :
    zodScalarCase (String.mk ('_' :: l)) = none := by
  simp [zodScalarCase, zodNumberNames, zodStringNames, String.ext_iff]

lemma part000ScalarCase_underscore (mode : ZodGenMode) (l : List Char) :
    part000ScalarCase mode (String.mk ('_' :: l)) = none := by
  simp [part000ScalarCase, part000NumberNames, part000StringNames, part000DateLikeNames,
    String.ext_iff]

lemma pgTypeToZodTypeGo_underscore (schema : PostgresSchema) (ctx : PgCtx) (l : List Char) :
    pgTypeToZodTypeGo schema ctx ('_' :: l)
      = "z.array(" ++ pgTypeToZodTypeGo schema ctx l ++ ")" := by
  rw [pgTypeToZodTypeGo, zodScalarCase_underscore]
  rfl

lemma pgTypeToZodSchemaGo_underscore (schema : PostgresSchema) (ctx : PgCtx)
    (mode : ZodGenMode) (l : List Char) :
    pgTypeToZodSchemaGo schema ctx mode ('_' :: l)
      = "z.array(" ++ pgTypeToZodSchemaGo schema ctx mode l ++ ")" := rfl

lemma pgTypeToZodTypeGo_head (schema : PostgresSchema) (ctx : PgCtx) (l : List Char)
    (h : l.head? ≠ some '_') :
    pgTypeToZodTypeGo schema ctx l
      = (zodScalarCase (String.mk l)).getD (pgTypeToZodTypeElse schema ctx (String.mk l)) := by
  cases l with
  | nil => rfl
  | cons c cs =>
    have hc : c ≠ '_' := by simpa using h
    rw [pgTypeToZodTypeGo.eq_def]
    split
    · next rest heq => exact absurd (by simpa using congrArg List.head? heq) hc
    · rfl

lemma pgTypeToZodSchemaGo_head (schema : PostgresSchema) (ctx : PgCtx) (mode : ZodGenMode)
    (l : List Char) (h : l.head? ≠ some '_') :
    pgTypeToZodSchemaGo schema ctx mode l
      = (match getEnumVariants ctx.types schema (String.mk l) with
        | some variants => "z.enum([" ++ String.intercalate ", " variants ++ "])"
        | none => (part000ScalarCase mode (String.mk l)).getD "z.unknown()") := by
  cases l with
  | nil => rfl
  | cons c cs =>
    have hc : c ≠ '_' := by simpa using h
    rw [pgTypeToZodSchemaGo.eq_def]
    split
    · next rest heq => exact absurd (by simpa using congrArg List.head? heq) hc
    · rfl

lemma pgTypeToZodTypeSteps_underscore (schema : PostgresSchema) (ctx : PgCtx) (f : Nat)
    (l : List Char) :
    pgTypeToZodTypeSteps schema ctx (f + 1) ('_' :: l)
      = (pgTypeToZodTypeSteps schema ctx f l).map (fun r => "z.array(" ++ r ++ ")") := by
  rw [pgTypeToZodTypeSteps, zodScalarCase_underscore]

lemma pgTypeToZodTypeSteps_head (schema : PostgresSchema) (ctx : PgCtx) (fuel : Nat)
    (l : List Char) (h : l.head? ≠ some '_') :
    pgTypeToZodTypeSteps schema ctx fuel l = some (pgTypeToZodTypeGo schema ctx l) := by
  rw [pgTypeToZodTypeGo_head schema ctx l h]
  cases l with
  | nil => cases fuel <;> rfl
  | cons c cs =>
    have hc : c ≠ '_' := by simpa using h
    rw [pgTypeToZodTypeSteps.eq_def]
    split
    · next f rest heq heq2 => exact absurd (by simpa using congrArg List.head? heq2) hc
    · rfl

lemma pgTypeToZodSchemaSteps_underscore (schema : PostgresSchema) (ctx : PgCtx)
    (mode : ZodGenMode) (f : Nat) (l : List Char) :
    pgTypeToZodSchemaSteps schema ctx mode (f + 1) ('_' :: l)
      = (pgTypeToZodSchemaSteps schema ctx mode f l).map (fun r => "z.array(" ++ r ++ ")") := rfl

lemma pgTypeToZodSchemaSteps_head (schema : PostgresSchema) (ctx : PgCtx) (mode : ZodGenMode)
    (fuel : Nat) (l : List Char) (h : l.head? ≠ some '_') :
    pgTypeToZodSchemaSteps schema ctx mode fuel l
      = some (pgTypeToZodSchemaGo schema ctx mode l) := by
  rw [pgTypeToZodSchemaGo_head schema ctx mode l h]
  cases l with
  | nil => cases fuel <;> rfl
  | cons c cs =>
    have hc : c ≠ '_' := by simpa using h
    rw [pgTypeToZodSchemaSteps.eq_def]
    split
    · next heq heq2 => exact absurd (by simpa using congrArg List.head? heq2) hc
    · next f rest heq heq2 => exact absurd (by simpa using congrArg List.head? heq2) hc
    · rfl

lemma dedupStep_superset (acc : List ManyToMany) (x m : ManyToMany) (h : m ∈ acc) :
    m ∈ dedupStep acc x := by
  unfold dedupStep
  split
  · exact h
  · exact List.mem_append_left _ h

lemma foldl_dedupStep_superset (ms : List ManyToMany) :
    ∀ (acc : List ManyToMany) (m : ManyToMany), m ∈ acc → m ∈ ms.foldl dedupStep acc := by
  induction ms with
  | nil => exact fun acc m h => h
  | cons x xs ih => exact fun acc m h => ih (dedupStep acc x) m (dedupStep_superset acc x m h)

lemma mem_foldl_dedupStep (ms : List ManyToMany) :
    ∀ (acc : List ManyToMany) (m : ManyToMany),
      (∀ m' ∈ ms, m'.leftTable = m.leftTable → m'.rightTable = m.rightTable → m' = m) →
      (m ∈ acc ∨ (m ∈ ms ∧
        ∀ m' ∈ acc, ¬(m'.leftTable = m.leftTable ∧ m'.rightTable = m.rightTable))) →
      m ∈ ms.foldl dedupStep acc := by
  induction ms with
  | nil =>
    intro acc m _ hinv
    rcases hinv with h | ⟨h, _⟩
    · exact h
    · exact absurd h (List.not_mem_nil m)
  | cons x xs ih =>
    intro acc m huniq hinv
    have huniq' : ∀ m' ∈ xs, m'.leftTable = m.leftTable → m'.rightTable = m.rightTable → m' = m :=
      fun m' hm' => huniq m' (List.mem_cons_of_mem x hm')
    rcases hinv with hacc | ⟨hm, hna⟩
    · exact ih (dedupStep acc x) m huniq' (Or.inl (dedupStep_superset acc x m hacc))
    · rcases List.mem_cons.mp hm with hx | hxs
      · -- m is the head element x
        subst hx
        have hstep : m ∈ dedupStep acc m := by
          unfold dedupStep
          split
          · next hany =>
            obtain ⟨m2, hm2, hcol⟩ := List.any_eq_true.mp hany
            simp only [Bool.and_eq_true, beq_iff_eq] at hcol
            exact absurd hcol (hna m2 hm2)
          · exact List.mem_append_right _ (List.mem_singleton.mpr rfl)
        exact ih (dedupStep acc m) m huniq' (Or.inl hstep)
      · -- m occurs later
        by_cases hcx : x.leftTable = m.leftTable ∧ x.rightTable = m.rightTable
        · have hxm : x = m := huniq x (List.mem_cons_self x xs) hcx.1 hcx.2
          subst hxm
          have hstep : x ∈ dedupStep acc x := by
            unfold dedupStep
            split
            · next hany =>
              obtain ⟨m2, hm2, hcol⟩ := List.any_eq_true.mp hany
              simp only [Bool.and_eq_true, beq_iff_eq] at hcol
              exact absurd hcol (hna m2 hm2)
            · exact List.mem_append_right _ (List.mem_singleton.mpr rfl)
          exact ih (dedupStep acc x) x huniq' (Or.inl hstep)
        · refine ih (dedupStep acc x) m huniq' (Or.inr ⟨hxs, ?_⟩)
          intro m' hm'
          have hmx : m' ∈ acc ∨ m' = x := by
            unfold dedupStep at hm'
            split at hm'
            · exact Or.inl hm'
            · rcases List.mem_append.mp hm' with h | h
              · exact Or.inl h
              · exact Or.inr (List.mem_singleton.mp h)
          rcases hmx with h | h
          · exact hna m' h
          · subst h
            exact hcx

lemma mem_dedupByTarget (ms : List ManyToMany) (m : ManyToMany) (hm : m ∈ ms)
    (huniq : ∀ m' ∈ ms, m'.leftTable = m.leftTable → m'.rightTable = m.rightTable → m' = m) :
    m ∈ dedupByTarget ms :=
  mem_foldl_dedupStep ms [] m huniq (Or.inr ⟨hm, by simp⟩)

lemma bool_guard_ite (b e : Bool) : (if b = true then false else e) = true ↔ b = false ∧ e = true := by
  cases b <;> simp

lemma bool_chain_ite (x : Bool) (n : Nat) :
    (if (!x) = true then true else if (n == 1) = true then true else false) = true
      ↔ (x = false ∨ n = 1) := by
  cases x <;> simp

lemma functionFilter_eq_true (schema : PostgresSchema) (f : PostgresFunction) :
    functionFilter schema f = true ↔
      (f.schema = schema.name ∧
        ((f.args.filter (fun a => inputArgModes.contains a.mode)).any
            (fun a => a.name == "") = false
          ∨ (f.args.filter (fun a => inputArgModes.contains a.mode)).length = 1)) := by
  unfold functionFilter
  by_cases hs : f.schema = schema.name
  · simp only [hs, bne_self_eq_false, Bool.false_eq_true, if_false]
    cases hx : (f.args.filter (fun a => inputArgModes.contains a.mode)).any
        (fun a => a.name == "") <;> simp [hx, hs]
  · have : (f.schema != schema.name) = true := by
      simp [bne_iff_ne, hs]
    simp [this, hs]

lemma append_chain (x a b c : String) (h : a ++ b = c) : x ++ a ++ b = x ++ c := by
  rw [String.append_assoc, h]

lemma keptSortedColumns_pairwise (m : GeneratorMetadata) :
    List.Pairwise (fun a b : PostgresColumn => a.name ≤ b.name) (keptSortedColumns m) := by
  have h := @List.sorted_mergeSort PostgresColumn
    (fun a b : PostgresColumn => decide (a.name ≤ b.name))
    (fun a b c hab hbc => by
      simp only [decide_eq_true_eq] at *
      exact le_trans hab hbc)
    (fun a b => by
      simp only [Bool.or_eq_true, decide_eq_true_eq]
      exact le_total a.name b.name)
    (m.columns.filter (fun c => (relationIds m).contains c.table_id))
  have he : (fun a b : PostgresColumn => a.name ≤ b.name)
      = fun a b : PostgresColumn => (decide (a.name ≤ b.name)) = true := by
    funext a b
    simp
  rw [keptSortedColumns, he]
  exact h

lemma columnsForRelation_pairwise (m : GeneratorMetadata) (tid : Nat) :
    List.Pairwise (fun a b : PostgresColumn => a.name ≤ b.name) (columnsForRelation m tid) :=
  List.Pairwise.filter _ (keptSortedColumns_pairwise m)

lemma mem_emittedFunctions (schemas : List PostgresSchema) (functions : List PostgresFunction)
    (g : PostgresFunction) :
    g ∈ emittedFunctions schemas functions
      ↔ ∃ sc ∈ schemas, g ∈ functions ∧ functionFilter sc g = true := by
  simp [emittedFunctions, sortFunctionsByName, sortSchemasByName, List.mem_flatMap,
    List.mem_mergeSort, List.mem_filter]

/- ===================== Claim theorems ===================== -/

/-- C1 (corrected): when a non-array type name matches an enum type, the second
variant's resolver always emits an inline enumeration-of-literals validator for
the preferred match, while the zod.ts resolver emits a reference to the named
schema-level enum validator whenever the preferred match's schema is among the
known schemas, inlining only when it is not. -/
theorem c1_enum_resolution_amended (schema : PostgresSchema) (ctx : PgCtx) (mode : ZodGenMode)
    (pgType : String) (e0 : PostgresType) (erest : List PostgresType)
    (hhead : pgType.data.head? ≠ some '_')
    (henum : ctx.types.filter (fun ty => ty.name == pgType && decide (0 < ty.enums.length))
      = e0 :: erest)
    (hscal : zodScalarCase pgType = none) :
    pgTypeToZodSchema schema pgType ctx mode
      = "z.enum([" ++ String.intercalate ", "
          ((((e0 :: erest).find? (fun ty => ty.schema == schema.name)).getD e0).enums.map
            jsonStringify) ++ "])"
    ∧ (ctx.schemas.any (fun sc =>
          sc.name == (((e0 :: erest).find? (fun ty => ty.schema == schema.name)).getD e0).schema)
        = true →
        pgTypeToZodType schema pgType ctx
          = toPascalCase (((e0 :: erest).find? (fun ty => ty.schema == schema.name)).getD e0).schema
            ++ toPascalCase (((e0 :: erest).find? (fun ty => ty.schema == schema.name)).getD e0).name
            ++ "Schema")
    ∧ (ctx.schemas.any (fun sc =>
          sc.name == (((e0 :: erest).find? (fun ty => ty.schema == schema.name)).getD e0).schema)
        = false →
        pgTypeToZodType schema pgType ctx
          = "z.enum([" ++ String.intercalate ", "
              ((((e0 :: erest).find? (fun ty => ty.schema == schema.name)).getD e0).enums.map
                jsonStringify) ++ "])") := by
  obtain ⟨l⟩ := pgType
  have hh : l.head? ≠ some '_' := hhead
  refine ⟨?_, ?_, ?_⟩
  · show pgTypeToZodSchemaGo schema ctx mode l = _
    rw [pgTypeToZodSchemaGo_head schema ctx mode l hh, getEnumVariants, henum]
  · intro hany
    show pgTypeToZodTypeGo schema ctx l = _
    rw [pgTypeToZodTypeGo_head schema ctx l hh, hscal]
    show pgTypeToZodTypeElse schema ctx (String.mk l) = _
    rw [pgTypeToZodTypeElse, henum]
    simp only [if_pos hany]
  · intro hany
    show pgTypeToZodTypeGo schema ctx l = _
    rw [pgTypeToZodTypeGo_head schema ctx l hh, hscal]
    show pgTypeToZodTypeElse schema ctx (String.mk l) = _
    rw [pgTypeToZodTypeElse, henum]
    simp only [hany, Bool.false_eq_true, if_false]

/-- Witness for C1: a `status` enum owned by a known schema resolves to an
inline `z.enum` in the second variant and to the named reference in zod.ts. -/
theorem c1_witness :
    pgTypeToZodSchema ⟨"public"⟩ "status"
        ⟨[⟨1, "status", "public", ["ACTIVE", "INACTIVE"], []⟩], [⟨"public"⟩], [], []⟩
        ZodGenMode.list
      = "z.enum([\"ACTIVE\", \"INACTIVE\"])"
    ∧ pgTypeToZodType ⟨"public"⟩ "status"
        ⟨[⟨1, "status", "public", ["ACTIVE", "INACTIVE"], []⟩], [⟨"public"⟩], [], []⟩
      = "PublicStatusSchema" := by
  have h := c1_enum_resolution_amended ⟨"public"⟩
    ⟨[⟨1, "status", "public", ["ACTIVE", "INACTIVE"], []⟩], [⟨"public"⟩], [], []⟩
    ZodGenMode.list "status" ⟨1, "status", "public", ["ACTIVE", "INACTIVE"], []⟩ []
    (by decide) (by decide) (by decide)
  exact ⟨h.1, h.2.1 (by decide)⟩

/-- Counterexample for C1 as stated: the zod.ts resolver turns the enum name
`status` into the reference `PublicStatusSchema`, not an inline
enumeration-of-literals validator. -/
theorem c1_counterexample :
    pgTypeToZodType ⟨"public"⟩ "status"
        ⟨[⟨1, "status", "public", ["ACTIVE", "INACTIVE"], []⟩], [⟨"public"⟩], [], []⟩
      = "PublicStatusSchema"
    ∧ "PublicStatusSchema" ≠ "z.enum([\"ACTIVE\", \"INACTIVE\"])" := by
  exact ⟨rfl, by decide⟩

/-- C2 (corrected): for a non-array type name that matches no enum and none of
the recognized scalar categories, the second variant's resolver returns
`z.unknown()` unconditionally — in particular for every composite type name and
every table/view row-type name — while the zod.ts resolver returns
`z.unknown()` exactly when the name also matches no composite type, no table
and no view, and otherwise resolves the first match in priority order
composite, table row, view row, emitting a named schema-level reference when
the preferred match's owning schema is among the known schemas and
`z.unknown()` otherwise. Both resolvers are total Lean functions, so no input
can make resolution fail. -/
theorem c2_unknown_fallback_amended (schema : PostgresSchema) (ctx : PgCtx) (mode : ZodGenMode)
    (pgType : String)
    (hhead : pgType.data.head? ≠ some '_') :
    (ctx.types.filter (fun ty => ty.name == pgType && decide (0 < ty.enums.length)) = [] →
      part000ScalarCase mode pgType = none →
      pgTypeToZodSchema schema pgType ctx mode = "z.unknown()")
    ∧ (zodScalarCase pgType = none →
        ctx.types.filter (fun ty => ty.name == pgType && decide (0 < ty.enums.length)) = [] →
        ctx.types.filter (fun ty => ty.name == pgType && decide (0 < ty.attributes.length)) = [] →
        ctx.tables.filter (fun t => t.name == pgType) = [] →
        ctx.views.filter (fun v => v.name == pgType) = [] →
        pgTypeToZodType schema pgType ctx = "z.unknown()")
    ∧ (∀ (c0 : PostgresType) (crest : List PostgresType),
        zodScalarCase pgType = none →
        ctx.types.filter (fun ty => ty.name == pgType && decide (0 < ty.enums.length)) = [] →
        ctx.types.filter (fun ty => ty.name == pgType && decide (0 < ty.attributes.length))
          = c0 :: crest →
        pgTypeToZodType schema pgType ctx
          = (if ctx.schemas.any (fun sc => sc.name
                == (((c0 :: crest).find? (fun ty => ty.schema == schema.name)).getD c0).schema)
            then
              toPascalCase
                  (((c0 :: crest).find? (fun ty => ty.schema == schema.name)).getD c0).schema
                ++ toPascalCase
                  (((c0 :: crest).find? (fun ty => ty.schema == schema.name)).getD c0).name
                ++ "Schema"
            else "z.unknown()"))
    ∧ (∀ (t0 : PostgresTable) (trest : List PostgresTable),
        zodScalarCase pgType = none →
        ctx.types.filter (fun ty => ty.name == pgType && decide (0 < ty.enums.length)) = [] →
        ctx.types.filter (fun ty => ty.name == pgType && decide (0 < ty.attributes.length)) = [] →
        ctx.tables.filter (fun t => t.name == pgType) = t0 :: trest →
        pgTypeToZodType schema pgType ctx
          = (if ctx.schemas.any (fun sc => sc.name
                == (((t0 :: trest).find? (fun t => t.schema == schema.name)).getD t0).schema)
            then
              toPascalCase
                  (((t0 :: trest).find? (fun t => t.schema == schema.name)).getD t0).schema
                ++ toPascalCase
                  (((t0 :: trest).find? (fun t => t.schema == schema.name)).getD t0).name
                ++ "RowSchema"
            else "z.unknown()"))
    ∧ (∀ (v0 : PostgresView) (vrest : List PostgresView),
        zodScalarCase pgType = none →
        ctx.types.filter (fun ty => ty.name == pgType && decide (0 < ty.enums.length)) = [] →
        ctx.types.filter (fun ty => ty.name == pgType && decide (0 < ty.attributes.length)) = [] →
        ctx.tables.filter (fun t => t.name == pgType) = [] →
        ctx.views.filter (fun v => v.name == pgType) = v0 :: vrest →
        pgTypeToZodType schema pgType ctx
          = (if ctx.schemas.any (fun sc => sc.name
                == (((v0 :: vrest).find? (fun v => v.schema == schema.name)).getD v0).schema)
            then
              toPascalCase
                  (((v0 :: vrest).find? (fun v => v.schema == schema.name)).getD v0).schema
                ++ toPascalCase
                  (((v0 :: vrest).find? (fun v => v.schema == schema.name)).getD v0).name
                ++ "RowSchema"
            else "z.unknown()")) := by
  obtain ⟨l⟩ := pgType
  have hh : l.head? ≠ some '_' := hhead
  refine ⟨?_, ?_, ?_, ?_, ?_⟩
  · intro henum hscalP
    show pgTypeToZodSchemaGo schema ctx mode l = _
    rw [pgTypeToZodSchemaGo_head schema ctx mode l hh, getEnumVariants, henum, hscalP]
    rfl
  · intro hscalZ henum hcomp htab hview
    show pgTypeToZodTypeGo schema ctx l = _
    rw [pgTypeToZodTypeGo_head schema ctx l hh, hscalZ]
    show pgTypeToZodTypeElse schema ctx (String.mk l) = _
    rw [pgTypeToZodTypeElse, henum, hcomp, htab, hview]
  · intro c0 crest hscalZ henum hcomp
    show pgTypeToZodTypeGo schema ctx l = _
    rw [pgTypeToZodTypeGo_head schema ctx l hh, hscalZ]
    show pgTypeToZodTypeElse schema ctx (String.mk l) = _
    rw [pgTypeToZodTypeElse, henum, hcomp]
  · intro t0 trest hscalZ henum hcomp htab
    show pgTypeToZodTypeGo schema ctx l = _
    rw [pgTypeToZodTypeGo_head schema ctx l hh, hscalZ]
    show pgTypeToZodTypeElse schema ctx (String.mk l) = _
    rw [pgTypeToZodTypeElse, henum, hcomp, htab]
  · intro v0 vrest hscalZ henum hcomp htab hview
    show pgTypeToZodTypeGo schema ctx l = _
    rw [pgTypeToZodTypeGo_head schema ctx l hh, hscalZ]
    show pgTypeToZodTypeElse schema ctx (String.mk l) = _
    rw [pgTypeToZodTypeElse, henum, hcomp, htab, hview]

/-- Witness for C2: the unmatched name `box` resolves to `z.unknown()` in both
resolvers, and for the composite type name `mytype` (owned by a known schema)
the second variant still returns `z.unknown()` while the zod.ts resolver emits
the named reference. -/
theorem c2_witness :
    pgTypeToZodSchema ⟨"public"⟩ "box" ⟨[], [], [], []⟩ ZodGenMode.list = "z.unknown()"
    ∧ pgTypeToZodType ⟨"public"⟩ "box" ⟨[], [], [], []⟩ = "z.unknown()"
    ∧ pgTypeToZodSchema ⟨"public"⟩ "mytype"
        ⟨[⟨1, "mytype", "public", [], [⟨"a", 2⟩]⟩], [⟨"public"⟩], [], []⟩ ZodGenMode.list
      = "z.unknown()"
    ∧ pgTypeToZodType ⟨"public"⟩ "mytype"
        ⟨[⟨1, "mytype", "public", [], [⟨"a", 2⟩]⟩], [⟨"public"⟩], [], []⟩
      = "PublicMytypeSchema" := by
  have hbox := c2_unknown_fallback_amended ⟨"public"⟩ ⟨[], [], [], []⟩ ZodGenMode.list "box"
    (by decide)
  have hmy := c2_unknown_fallback_amended ⟨"public"⟩
    ⟨[⟨1, "mytype", "public", [], [⟨"a", 2⟩]⟩], [⟨"public"⟩], [], []⟩ ZodGenMode.list "mytype"
    (by decide)
  have href := hmy.2.2.1 ⟨1, "mytype", "public", [], [⟨"a", 2⟩]⟩ []
    (by decide) (by decide) (by decide)
  exact ⟨hbox.1 (by decide) (by decide),
    hbox.2.1 (by decide) (by decide) (by decide) (by decide) (by decide),
    hmy.1 (by decide) (by decide),
    href.trans (by decide)⟩

/-- Counterexample for C2 as stated: the zod.ts resolver sends the composite
type name `mytype` (whose schema is known) to the named reference
`PublicMytypeSchema`, not to `z.unknown()`. -/
theorem c2_counterexample :
    pgTypeToZodType ⟨"public"⟩ "mytype"
        ⟨[⟨1, "mytype", "public", [], [⟨"a", 2⟩]⟩], [⟨"public"⟩], [], []⟩
      = "PublicMytypeSchema"
    ∧ "PublicMytypeSchema" ≠ "z.unknown()" := by
  exact ⟨rfl, by decide⟩

/-- C3 (confirmed): a column with identity-generation ALWAYS gets the
never-accept-a-value validator, optional in the object shape, on the insert and
update lines of both variants, regardless of every other column attribute; its
plain resolved type validator never appears in those lines. -/
theorem c3_identity_always_never (schema : PostgresSchema) (ctx : PgCtx)
    (col : PostgresColumn) (halways : col.identity_generation = some "ALWAYS") :
    insertSchemaLine schema ctx col = jsonStringify col.name ++ ": z.never().optional()"
    ∧ updateSchemaLine schema ctx col = jsonStringify col.name ++ ": z.never().optional()"
    ∧ makeInsertShapeLine schema ctx col = jsonStringify col.name ++ "?: z.never()"
    ∧ makeUpdateShapeLine schema ctx col = jsonStringify col.name ++ "?: z.never()" := by
  refine ⟨?_, ?_, ?_, ?_⟩ <;>
    simp [insertSchemaLine, updateSchemaLine, makeInsertShapeLine, makeUpdateShapeLine, halways]

/-- Witness for C3 at a nullable, defaulted, identity-ALWAYS column. -/
theorem c3_witness :
    insertSchemaLine ⟨"public"⟩ ⟨[], [], [], []⟩
        ⟨1, "id", "int8", true, true, some "ALWAYS", some "0", true⟩
      = jsonStringify "id" ++ ": z.never().optional()"
    ∧ updateSchemaLine ⟨"public"⟩ ⟨[], [], [], []⟩
        ⟨1, "id", "int8", true, true, some "ALWAYS", some "0", true⟩
      = jsonStringify "id" ++ ": z.never().optional()"
    ∧ makeInsertShapeLine ⟨"public"⟩ ⟨[], [], [], []⟩
        ⟨1, "id", "int8", true, true, some "ALWAYS", some "0", true⟩
      = jsonStringify "id" ++ "?: z.never()"
    ∧ makeUpdateShapeLine ⟨"public"⟩ ⟨[], [], [], []⟩
        ⟨1, "id", "int8", true, true, some "ALWAYS", some "0", true⟩
      = jsonStringify "id" ++ "?: z.never()" :=
  c3_identity_always_never ⟨"public"⟩ ⟨[], [], [], []⟩
    ⟨1, "id", "int8", true, true, some "ALWAYS", some "0", true⟩ rfl

/-- C4 (confirmed): for a column whose identity-generation is not ALWAYS and
whose `is_identity` flag agrees with its identity-generation mode, the insert
line applies the nullable-wrapper iff the column is nullable and the
optional-wrapper iff (nullable or identity-generation not NONE or a default is
declared); a nullable, non-identity, no-default column gets
`.nullable().optional()`; and the update line always ends in `.optional()`.
Both variants. -/
theorem c4_insert_update_optionality (schema : PostgresSchema) (ctx : PgCtx)
    (col : PostgresColumn)
    (hnot : col.identity_generation ≠ some "ALWAYS")
    (hid : col.is_identity = col.identity_generation.isSome) :
    insertSchemaLine schema ctx col
      = jsonStringify col.name ++ ": " ++ pgTypeToZodType schema col.format ctx
        ++ (if col.is_nullable then ".nullable()" else "")
        ++ (if col.is_nullable || col.identity_generation.isSome || col.default_value.isSome
            then ".optional()" else "")
    ∧ updateSchemaLine schema ctx col
      = jsonStringify col.name ++ ": " ++ pgTypeToZodType schema col.format ctx
        ++ (if col.is_nullable then ".nullable()" else "") ++ ".optional()"
    ∧ (col.is_nullable = true → col.identity_generation = none → col.default_value = none →
        insertSchemaLine schema ctx col
          = jsonStringify col.name ++ ": " ++ pgTypeToZodType schema col.format ctx
            ++ ".nullable().optional()")
    ∧ makeInsertShapeLine schema ctx col
      = jsonStringify col.name ++ ": "
        ++ (if col.is_nullable || col.identity_generation.isSome || col.default_value.isSome
            then withNullable (pgTypeToZodSchema schema col.format ctx ZodGenMode.insert)
                col.is_nullable ++ ".optional()"
            else withNullable (pgTypeToZodSchema schema col.format ctx ZodGenMode.insert)
                col.is_nullable)
    ∧ makeUpdateShapeLine schema ctx col
      = jsonStringify col.name ++ ": "
        ++ (withNullable (pgTypeToZodSchema schema col.format ctx ZodGenMode.update)
            col.is_nullable ++ ".optional()")
    ∧ (col.is_nullable = true → col.identity_generation = none → col.default_value = none →
        makeInsertShapeLine schema ctx col
          = jsonStringify col.name ++ ": "
            ++ (pgTypeToZodSchema schema col.format ctx ZodGenMode.insert
                ++ ".nullable().optional()")) := by
  have hins : insertSchemaLine schema ctx col
      = jsonStringify col.name ++ ": " ++ pgTypeToZodType schema col.format ctx
        ++ (if col.is_nullable then ".nullable()" else "")
        ++ (if col.is_nullable || col.identity_generation.isSome || col.default_value.isSome
            then ".optional()" else "") := by
    unfold insertSchemaLine
    rw [if_neg hnot, hid]
  have hmins : makeInsertShapeLine schema ctx col
      = jsonStringify col.name ++ ": "
        ++ (if col.is_nullable || col.identity_generation.isSome || col.default_value.isSome
            then withNullable (pgTypeToZodSchema schema col.format ctx ZodGenMode.insert)
                col.is_nullable ++ ".optional()"
            else withNullable (pgTypeToZodSchema schema col.format ctx ZodGenMode.insert)
                col.is_nullable) := by
    unfold makeInsertShapeLine
    rw [if_neg hnot, hid]
  refine ⟨hins, ?_, ?_, hmins, ?_, ?_⟩
  · unfold updateSchemaLine
    rw [if_neg hnot]
  · intro hn hg hd
    rw [hins, hn, hg, hd]
    exact append_chain _ ".nullable()" ".optional()" ".nullable().optional()" rfl
  · unfold makeUpdateShapeLine
    rw [if_neg hnot]
  · intro hn hg hd
    rw [hmins, hn, hg, hd]
    exact congrArg (fun t => jsonStringify col.name ++ ": " ++ t)
      (append_chain _ ".nullable()" ".optional()" ".nullable().optional()" rfl)

/-- Witness for C4 at a nullable, non-identity, no-default text column. -/
theorem c4_witness :
    insertSchemaLine ⟨"public"⟩ ⟨[], [], [], []⟩
        ⟨1, "name", "text", true, false, none, none, true⟩
      = jsonStringify "name" ++ ": " ++ pgTypeToZodType ⟨"public"⟩ "text" ⟨[], [], [], []⟩
        ++ ".nullable().optional()"
    ∧ updateSchemaLine ⟨"public"⟩ ⟨[], [], [], []⟩
        ⟨1, "name", "text", true, false, none, none, true⟩
      = jsonStringify "name" ++ ": " ++ pgTypeToZodType ⟨"public"⟩ "text" ⟨[], [], [], []⟩
        ++ ".nullable()" ++ ".optional()"
    ∧ makeInsertShapeLine ⟨"public"⟩ ⟨[], [], [], []⟩
        ⟨1, "name", "text", true, false, none, none, true⟩
      = jsonStringify "name" ++ ": "
        ++ (pgTypeToZodSchema ⟨"public"⟩ "text" ⟨[], [], [], []⟩ ZodGenMode.insert
            ++ ".nullable().optional()") := by
  have h := c4_insert_update_optionality ⟨"public"⟩ ⟨[], [], [], []⟩
    ⟨1, "name", "text", true, false, none, none, true⟩ (by decide) rfl
  refine ⟨h.2.2.1 rfl rfl rfl, ?_, h.2.2.2.2.2 rfl rfl rfl⟩
  have hu := h.2.1
  simpa using hu

/-- C5 (code bug): the updatable-view insert/update field lines interpolate
the column name raw instead of as a quoted JSON string literal, so a column
named `user-id` on an updatable view produces an unquoted (and, for names with
special characters, syntactically invalid) object key, while `JSON.stringify`
would have produced the quoted key used everywhere else in the template. -/
theorem c5_view_line_unquoted_key :
    viewInsertSchemaLine ⟨"public"⟩ ⟨[], [], [], []⟩
        ⟨1, "user-id", "int4", true, false, none, none, true⟩
      = "user-id: z.number().nullable().optional()"
    ∧ viewUpdateSchemaLine ⟨"public"⟩ ⟨[], [], [], []⟩
        ⟨1, "user-id", "int4", true, false, none, none, true⟩
      = "user-id: z.number().nullable().optional()"
    ∧ jsonStringify "user-id" = "\"user-id\"" := by
  exact ⟨rfl, rfl, rfl⟩

/-- C6 (confirmed): a type name made of `k` leading array markers followed by a
marker-free base resolves, in both resolvers, to exactly `k` nested array-of
wrappers around the resolution of the base name under the same mode, and the
fuel-instrumented resolvers succeed within `k` recursive steps. -/
theorem c6_array_nesting (schema : PostgresSchema) (ctx : PgCtx) (mode : ZodGenMode)
    (k : Nat) (base : String) (hhead : base.data.head? ≠ some '_') :
    pgTypeToZodType schema (String.mk (List.replicate k '_' ++ base.data)) ctx
      = nestArray k (pgTypeToZodType schema base ctx)
    ∧ pgTypeToZodSchema schema (String.mk (List.replicate k '_' ++ base.data)) ctx mode
      = nestArray k (pgTypeToZodSchema schema base ctx mode)
    ∧ pgTypeToZodTypeSteps schema ctx k (List.replicate k '_' ++ base.data)
      = some (pgTypeToZodType schema (String.mk (List.replicate k '_' ++ base.data)) ctx)
    ∧ pgTypeToZodSchemaSteps schema ctx mode k (List.replicate k '_' ++ base.data)
      = some (pgTypeToZodSchema schema (String.mk (List.replicate k '_' ++ base.data)) ctx mode) := by
  induction k with
  | zero =>
    refine ⟨rfl, rfl, ?_, ?_⟩
    · exact pgTypeToZodTypeSteps_head schema ctx 0 base.data hhead
    · exact pgTypeToZodSchemaSteps_head schema ctx mode 0 base.data hhead
  | succ n ih =>
    obtain ⟨ih1, ih2, ih3, ih4⟩ := ih
    have e1 : pgTypeToZodTypeGo schema ctx (List.replicate n '_' ++ base.data)
        = nestArray n (pgTypeToZodType schema base ctx) := ih1
    have e2 : pgTypeToZodSchemaGo schema ctx mode (List.replicate n '_' ++ base.data)
        = nestArray n (pgTypeToZodSchema schema base ctx mode) := ih2
    have e3 : pgTypeToZodTypeSteps schema ctx n (List.replicate n '_' ++ base.data)
        = some (pgTypeToZodTypeGo schema ctx (List.replicate n '_' ++ base.data)) := ih3
    have e4 : pgTypeToZodSchemaSteps schema ctx mode n (List.replicate n '_' ++ base.data)
        = some (pgTypeToZodSchemaGo schema ctx mode (List.replicate n '_' ++ base.data)) := ih4
    refine ⟨?_, ?_, ?_, ?_⟩
    · show pgTypeToZodTypeGo schema ctx ('_' :: (List.replicate n '_' ++ base.data)) = _
      rw [pgTypeToZodTypeGo_underscore, e1]
      rfl
    · show pgTypeToZodSchemaGo schema ctx mode ('_' :: (List.replicate n '_' ++ base.data)) = _
      rw [pgTypeToZodSchemaGo_underscore, e2]
      rfl
    · show pgTypeToZodTypeSteps schema ctx (n + 1) ('_' :: (List.replicate n '_' ++ base.data))
        = some (pgTypeToZodTypeGo schema ctx ('_' :: (List.replicate n '_' ++ base.data)))
      rw [pgTypeToZodTypeSteps_underscore, e3, pgTypeToZodTypeGo_underscore]
      rfl
    · show pgTypeToZodSchemaSteps schema ctx mode (n + 1)
          ('_' :: (List.replicate n '_' ++ base.data))
        = some (pgTypeToZodSchemaGo schema ctx mode ('_' :: (List.replicate n '_' ++ base.data)))
      rw [pgTypeToZodSchemaSteps_underscore, e4, pgTypeToZodSchemaGo_underscore]
      rfl

/-- Witness for C6 at `__text` (two markers around `text`). -/
theorem c6_witness :
    pgTypeToZodType ⟨"public"⟩ (String.mk (List.replicate 2 '_' ++ "text".data)) ⟨[], [], [], []⟩
      = nestArray 2 (pgTypeToZodType ⟨"public"⟩ "text" ⟨[], [], [], []⟩)
    ∧ pgTypeToZodTypeSteps ⟨"public"⟩ ⟨[], [], [], []⟩ 2 (List.replicate 2 '_' ++ "text".data)
      = some (pgTypeToZodType ⟨"public"⟩ (String.mk (List.replicate 2 '_' ++ "text".data))
          ⟨[], [], [], []⟩)
    ∧ pgTypeToZodSchemaSteps ⟨"public"⟩ ⟨[], [], [], []⟩ ZodGenMode.list 2
        (List.replicate 2 '_' ++ "text".data)
      = some (pgTypeToZodSchema ⟨"public"⟩ (String.mk (List.replicate 2 '_' ++ "text".data))
          ⟨[], [], [], []⟩ ZodGenMode.list) := by
  have h := c6_array_nesting ⟨"public"⟩ ⟨[], [], [], []⟩ ZodGenMode.list 2 "text" (by decide)
  exact ⟨h.1, h.2.2.1, h.2.2.2⟩

/-- C7 (confirmed, spec-modelled): a junction relation `J` whose two outgoing
foreign keys reference `A` (via column `a_id` to `A.id`) and `B` (via `b_id`
to `B.id`) makes the analyzer produce on `A` a many-to-many accessor targeting
`B` through join `J` with keys `(a_id, b_id)` and symmetrically on `B`
targeting `A` with keys `(b_id, a_id)`, provided no other junction produces a
colliding accessor for those (host, target) pairs. -/
theorem c7_many_to_many (relationNames : List String)
    (relationships : List PostgresRelationship) (J A B aid bid : String)
    (r1 r2 : PostgresRelationship)
    (hJ : J ∈ relationNames)
    (hout : outgoingRelationships relationships J = [r1, r2])
    (h1t : r1.referenced_relation = A) (h1c : r1.columns = [aid])
    (_h1r : r1.referenced_columns = ["id"])
    (h2t : r2.referenced_relation = B) (h2c : r2.columns = [bid])
    (_h2r : r2.referenced_columns = ["id"])
    (huniqA : ∀ m ∈ (relationNames.map (junctionRecords relationships)).flatten,
      m.leftTable = A → m.rightTable = B → m = ⟨J, A, B, [aid], [bid]⟩)
    (huniqB : ∀ m ∈ (relationNames.map (junctionRecords relationships)).flatten,
      m.leftTable = B → m.rightTable = A → m = ⟨J, B, A, [bid], [aid]⟩) :
    (⟨J, A, B, [aid], [bid]⟩ : ManyToMany) ∈ analyzeManyToMany relationNames relationships
    ∧ (⟨J, B, A, [bid], [aid]⟩ : ManyToMany) ∈ analyzeManyToMany relationNames relationships := by
  have hrec : junctionRecords relationships J
      = [⟨J, A, B, [aid], [bid]⟩, ⟨J, B, A, [bid], [aid]⟩] := by
    rw [junctionRecords, hout]
    simp only [h1t, h1c, h2t, h2c]
  have hmem1 : (⟨J, A, B, [aid], [bid]⟩ : ManyToMany)
      ∈ (relationNames.map (junctionRecords relationships)).flatten :=
    List.mem_flatten.mpr ⟨junctionRecords relationships J,
      List.mem_map_of_mem _ hJ, by rw [hrec]; exact List.mem_cons_self _ _⟩
  have hmem2 : (⟨J, B, A, [bid], [aid]⟩ : ManyToMany)
      ∈ (relationNames.map (junctionRecords relationships)).flatten :=
    List.mem_flatten.mpr ⟨junctionRecords relationships J,
      List.mem_map_of_mem _ hJ, by rw [hrec]; simp⟩
  exact ⟨mem_dedupByTarget _ _ hmem1 huniqA, mem_dedupByTarget _ _ hmem2 huniqB⟩

/-- Witness for C7: the junction `ab` between `a` and `b` yields both
directional accessors. -/
theorem c7_witness :
    (⟨"ab", "a", "b", ["a_id"], ["b_id"]⟩ : ManyToMany)
      ∈ analyzeManyToMany ["a", "b", "ab"]
        [⟨"public", "ab", ["a_id"], "public", "a", ["id"]⟩,
         ⟨"public", "ab", ["b_id"], "public", "b", ["id"]⟩]
    ∧ (⟨"ab", "b", "a", ["b_id"], ["a_id"]⟩ : ManyToMany)
      ∈ analyzeManyToMany ["a", "b", "ab"]
        [⟨"public", "ab", ["a_id"], "public", "a", ["id"]⟩,
         ⟨"public", "ab", ["b_id"], "public", "b", ["id"]⟩] :=
  c7_many_to_many ["a", "b", "ab"]
    [⟨"public", "ab", ["a_id"], "public", "a", ["id"]⟩,
     ⟨"public", "ab", ["b_id"], "public", "b", ["id"]⟩]
    "ab" "a" "b" "a_id" "b_id"
    ⟨"public", "ab", ["a_id"], "public", "a", ["id"]⟩
    ⟨"public", "ab", ["b_id"], "public", "b", ["id"]⟩
    (by decide) (by decide) rfl rfl rfl rfl rfl rfl (by decide) (by decide)

/-- C8 (confirmed, spec-modelled): the lenient integer coercion accepts the
native number 42 and the string "42" (yielding 42), rejects the string "042"
and the number 42.5, and accepts a string exactly when its base-10 parse,
rendered back to text, reproduces the string. -/
theorem c8_lenient_integer :
    lenientIntCoerce (JsValue.num 42) = some 42
    ∧ lenientIntCoerce (JsValue.str "42") = some 42
    ∧ lenientIntCoerce (JsValue.str "042") = none
    ∧ lenientIntCoerce (JsValue.num fortyTwoPointFive) = none
    ∧ (∀ (s : String) (n : Int), lenientIntCoerce (JsValue.str s) = some n
        → parseBase10 s = some n ∧ toString n = s)
    ∧ (∀ (s : String) (n : Int), parseBase10 s = some n → toString n = s
        → lenientIntCoerce (JsValue.str s) = some n) := by
  refine ⟨by decide, by decide, by decide, by decide, ?_, ?_⟩
  · intro s n h
    have h' : (match parseBase10 s with
        | some k => if toString k = s then some k else none
        | none => none) = some n := h
    cases hp : parseBase10 s with
    | none =>
      rw [hp] at h'
      exact absurd h' (by simp)
    | some k =>
      rw [hp] at h'
      have h'' : (if toString k = s then some k else none) = some n := h'
      by_cases ht : toString k = s
      · rw [if_pos ht] at h''
        have hk : k = n := by injection h''
        subst hk
        exact ⟨rfl, ht⟩
      · rw [if_neg ht] at h''
        exact absurd h'' (by simp)
  · intro s n hp ht
    show (match parseBase10 s with
        | some k => if toString k = s then some k else none
        | none => none) = some n
    rw [hp]
    show (if toString n = s then some n else none) = some n
    rw [if_pos ht]

/-- Witness for C8: the canonical string "7" is accepted as 7. -/
theorem c8_witness :
    lenientIntCoerce (JsValue.str "7") = some 7
    ∧ (parseBase10 "7" = some 7 ∧ toString (7 : Int) = "7") :=
  ⟨by decide, c8_lenient_integer.2.2.2.2.1 "7" 7 (by decide)⟩

/-- C9 (corrected): a function with two or more input arguments of which one is
unnamed is never emitted; a function whose input arguments are all named, or
with exactly one input argument, is emitted provided it is in the bundle and
its owning schema is among the bundle's schemas. -/
theorem c9_function_filter_amended (schemas : List PostgresSchema)
    (functions : List PostgresFunction) (f : PostgresFunction) :
    ((f.args.filter (fun a => inputArgModes.contains a.mode)).any (fun a => a.name == "") = true →
      2 ≤ (f.args.filter (fun a => inputArgModes.contains a.mode)).length →
      f ∉ emittedFunctions schemas functions)
    ∧ (f ∈ functions → (∃ sc ∈ schemas, sc.name = f.schema) →
        ((f.args.filter (fun a => inputArgModes.contains a.mode)).any
            (fun a => a.name == "") = false
          ∨ (f.args.filter (fun a => inputArgModes.contains a.mode)).length = 1) →
        f ∈ emittedFunctions schemas functions) := by
  constructor
  · intro hany hlen hcontra
    obtain ⟨sc, _, _, hff⟩ := (mem_emittedFunctions schemas functions f).mp hcontra
    obtain ⟨-, hor⟩ := (functionFilter_eq_true sc f).mp hff
    rcases hor with h | h
    · rw [hany] at h
      exact Bool.noConfusion h
    · rw [h] at hlen
      omega
  · rintro hf ⟨sc, hsc, hname⟩ hor
    exact (mem_emittedFunctions schemas functions f).mpr
      ⟨sc, hsc, hf, (functionFilter_eq_true sc f).mpr ⟨hname.symm, hor⟩⟩

/-- Witness for C9: an all-named two-argument function in a known schema is
emitted. -/
theorem c9_witness :
    (⟨"f", "public", [⟨"in", "x", 1, false⟩, ⟨"in", "y", 2, false⟩]⟩ : PostgresFunction)
      ∈ emittedFunctions [⟨"public"⟩]
        [⟨"f", "public", [⟨"in", "x", 1, false⟩, ⟨"in", "y", 2, false⟩]⟩] :=
  (c9_function_filter_amended [⟨"public"⟩]
    [⟨"f", "public", [⟨"in", "x", 1, false⟩, ⟨"in", "y", 2, false⟩]⟩]
    ⟨"f", "public", [⟨"in", "x", 1, false⟩, ⟨"in", "y", 2, false⟩]⟩).2
    (by decide) ⟨⟨"public"⟩, by decide, rfl⟩ (Or.inl (by decide))

/-- Counterexample for C9 as stated: a function whose input arguments are all
named is still not emitted when its owning schema is absent from the bundle's
schema list. -/
theorem c9_counterexample :
    (⟨"f", "other", [⟨"in", "x", 1, false⟩, ⟨"in", "y", 2, false⟩]⟩ : PostgresFunction)
      ∉ emittedFunctions [⟨"public"⟩]
        [⟨"f", "other", [⟨"in", "x", 1, false⟩, ⟨"in", "y", 2, false⟩]⟩] := by
  intro h
  obtain ⟨sc, hsc, -, hff⟩ := (mem_emittedFunctions _ _ _).mp h
  have hsc' : sc = ⟨"public"⟩ := List.mem_singleton.mp hsc
  subst hsc'
  exact absurd hff (by decide)

/-- C10 (confirmed): a column whose `table_id` matches no relation id appears
in no relation's emitted column list (generation still completes, every
embedded pipeline stage being a total function), and the emitted list of every
relation contains exactly its own columns, sorted by name. -/
theorem c10_columns_partition (m : GeneratorMetadata) (tid : Nat) (c : PostgresColumn) :
    (tid ∈ relationIds m →
      (c ∈ columnsForRelation m tid ↔ (c ∈ m.columns ∧ c.table_id = tid)))
    ∧ (c.table_id ∉ relationIds m → c ∉ columnsForRelation m tid)
    ∧ List.Pairwise (fun a b : PostgresColumn => a.name ≤ b.name) (columnsForRelation m tid) := by
  have hmem : c ∈ columnsForRelation m tid
      ↔ (c ∈ m.columns ∧ c.table_id ∈ relationIds m ∧ c.table_id = tid) := by
    simp [columnsForRelation, keptSortedColumns, List.mem_filter, List.mem_mergeSort,
      and_assoc]
  refine ⟨?_, ?_, columnsForRelation_pairwise m tid⟩
  · intro htid
    rw [hmem]
    constructor
    · rintro ⟨h1, -, h3⟩
      exact ⟨h1, h3⟩
    · rintro ⟨h1, h3⟩
      exact ⟨h1, h3 ▸ htid, h3⟩
  · intro horphan hcontra
    obtain ⟨-, h2, -⟩ := hmem.mp hcontra
    exact horphan h2

/-- Witness for C10 on a one-table bundle with one matching column and one
orphan column. -/
theorem c10_witness :
    ((⟨1, "a", "int4", false, false, none, none, true⟩ : PostgresColumn)
        ∈ columnsForRelation
          ⟨[⟨1, "t", "public"⟩], [], [], [],
            [⟨1, "a", "int4", false, false, none, none, true⟩,
             ⟨99, "b", "int4", false, false, none, none, true⟩]⟩ 1
      ↔ ((⟨1, "a", "int4", false, false, none, none, true⟩ : PostgresColumn)
          ∈ [⟨1, "a", "int4", false, false, none, none, true⟩,
             (⟨99, "b", "int4", false, false, none, none, true⟩ : PostgresColumn)]
        ∧ (1 : Nat) = 1))
    ∧ ((⟨99, "b", "int4", false, false, none, none, true⟩ : PostgresColumn)
        ∉ columnsForRelation
          ⟨[⟨1, "t", "public"⟩], [], [], [],
            [⟨1, "a", "int4", false, false, none, none, true⟩,
             ⟨99, "b", "int4", false, false, none, none, true⟩]⟩ 1) := by
  have h1 := (c10_columns_partition
    ⟨[⟨1, "t", "public"⟩], [], [], [],
      [⟨1, "a", "int4", false, false, none, none, true⟩,
       ⟨99, "b", "int4", false, false, none, none, true⟩]⟩ 1
    ⟨1, "a", "int4", false, false, none, none, true⟩).1 (by decide)
  have h2 := (c10_columns_partition
    ⟨[⟨1, "t", "public"⟩], [], [], [],
      [⟨1, "a", "int4", false, false, none, none, true⟩,
       ⟨99, "b", "int4", false, false, none, none, true⟩]⟩ 1
    ⟨99, "b", "int4", false, false, none, none, true⟩).2.1 (by decide)
  exact ⟨h1, h2⟩
